import Mathlib

/-
Verification development for the PodARC event/video correlation and
retention engine.  The JavaScript source (app.js, event-retention.js,
migration-video-paths.js, the /api/videos/list route) is shallowly
embedded below: pure fragments become Lean functions, filesystem and
HTTP effects become explicit function parameters (directory listings,
existence checks, unlink outcomes), and JS numbers/dates become Int
millisecond timestamps computed with the standard civil-calendar
arithmetic that ECMAScript Date uses for out-of-range field
normalization.
-/

namespace PodARC

/-! ## JavaScript string primitives

`String.prototype.substring(a, b)` swaps its arguments when `a > b`
and clamps to the string length; `String.prototype.substr(a, len)`
takes `len` characters starting at index `a`.  `parseInt` on an
all-digit string is a base-10 left fold. -/

def jsSubstring (s : String) (a b : Nat) : String :=
  let l := s.toList
  let lo := min (min a b) l.length
  let hi := min (max a b) l.length
  String.mk ((l.drop lo).take (hi - lo))

def jsSubstr (s : String) (a len : Nat) : String :=
  String.mk ((s.toList.drop a).take len)

def isDigitChar (c : Char) : Bool :=
  '0' ≤ c ∧ c ≤ '9'

def parseIntDigits (s : String) : Int :=
  s.toList.foldl (fun acc c => acc * 10 + ((c.toNat : Int) - 48)) 0

/-- Leftmost match of the regex `(\d{14})`: the first position at which
fourteen consecutive digit characters occur; the capture is those
fourteen characters. -/
def extract14From : List Char → Option String
  | [] => none
  | c :: rest =>
      if ((c :: rest).take 14).length = 14 ∧ ((c :: rest).take 14).all isDigitChar then
        some (String.mk ((c :: rest).take 14))
      else
        extract14From rest

def extract14 (s : String) : Option String :=
  extract14From s.toList

/-- Leftmost match of the image-filename regex `\d+_\d+_(\d{14})`:
a run of digits, an underscore, a run of digits, an underscore, then at
least fourteen digits; the capture is the first fourteen digits after
the second underscore.  Because the fixed characters are underscores
(not digits) the greedy `\d+` pieces never need to backtrack, so the
leftmost-scan implementation below is exact. -/
def imageTsMatchAt (l : List Char) : Option String :=
  let run1 := l.takeWhile isDigitChar
  if run1.length = 0 then none else
  match l.drop run1.length with
  | '_' :: rest1 =>
      let run2 := rest1.takeWhile isDigitChar
      if run2.length = 0 then none else
      (match rest1.drop run2.length with
       | '_' :: rest2 =>
           let run3 := rest2.takeWhile isDigitChar
           if 14 ≤ run3.length then some (String.mk (run3.take 14)) else none
       | _ => none)
  | _ => none

def imageTimestampMatchFrom : List Char → Option String
  | [] => none
  | c :: rest =>
      match imageTsMatchAt (c :: rest) with
      | some cap => some cap
      | none => imageTimestampMatchFrom rest

def imageTimestampMatch (s : String) : Option String :=
  imageTimestampMatchFrom s.toList

/-- `s.startsWith(pre)` over the code units. -/
def strStartsWith (s pre : String) : Bool :=
  pre.toList.isPrefixOf s.toList

/-- `s.endsWith(suffix)` over the code units. -/
def strEndsWith (s suffix : String) : Bool :=
  suffix.toList.isSuffixOf s.toList

/-- `s.toLowerCase()` restricted to ASCII, which is all the source
compares. -/
def charToLower (c : Char) : Char :=
  if 'A' ≤ c ∧ c ≤ 'Z' then Char.ofNat (c.toNat + 32) else c

def strToLower (s : String) : String :=
  String.mk (s.toList.map charToLower)

/-- `s.slice(n)` / dropping the first `n` code units. -/
def strDrop (s : String) (n : Nat) : String :=
  String.mk (s.toList.drop n)

/-- `path.basename` / `videoPath.split('/').pop()`: the last
slash-separated component. -/
def basename (s : String) : String :=
  String.mk (s.toList.foldl (fun acc c => if c = '/' then [] else acc ++ [c]) [])

/-! ## ECMAScript Date arithmetic

`new Date(y, m0, d, h, mi, s).getTime()` in a naive (UTC-as-local)
model.  Out-of-range months/days/hours normalize arithmetically, which
the civil-calendar day count below reproduces (days-from-civil is
linear in the day argument).  All divisions are floor divisions. -/

def daysFromCivil (y m d : Int) : Int :=
  let y1 := y - (if m ≤ 2 then 1 else 0)
  let era := Int.fdiv y1 400
  let yoe := y1 - era * 400
  let mp := Int.fmod (m + 9) 12
  let doy := Int.fdiv (153 * mp + 2) 5 + d - 1
  let doe := yoe * 365 + Int.fdiv yoe 4 - Int.fdiv yoe 100 + doy
  era * 146097 + doe - 719468

def civilFromDays (z0 : Int) : Int × Int × Int :=
  let z := z0 + 719468
  let era := Int.fdiv z 146097
  let doe := z - era * 146097
  let yoe := Int.fdiv (doe - Int.fdiv doe 1460 + Int.fdiv doe 36524 - Int.fdiv doe 146096) 365
  let y := yoe + era * 400
  let doy := doe - (365 * yoe + Int.fdiv yoe 4 - Int.fdiv yoe 100)
  let mp := Int.fdiv (5 * doy + 2) 153
  let d := doy - Int.fdiv (153 * mp + 2) 5 + 1
  let m := mp + (if mp < 10 then 3 else -9)
  (y + (if m ≤ 2 then 1 else 0), m, d)

def jsDateMs (y m0 d h mi s : Int) : Int :=
  let yAdj := y + Int.fdiv m0 12
  let m1 := Int.fmod m0 12 + 1
  (((daysFromCivil yAdj m1 d) * 24 + h) * 60 + mi) * 60000 + s * 1000

def msToDays (ms : Int) : Int := Int.fdiv ms 86400000

/-- `(n).toString().padStart(2, '0')` for the non-negative calendar
fields the source feeds it. -/
def pad2 (n : Int) : String :=
  if 0 ≤ n ∧ n < 10 then "0" ++ toString n else toString n

def getFullYearOf (ms : Int) : Int := (civilFromDays (msToDays ms)).1
def getMonthOf (ms : Int) : Int := (civilFromDays (msToDays ms)).2.1 - 1
def getDateOf (ms : Int) : Int := (civilFromDays (msToDays ms)).2.2

/-! ## Data model

One alarm event row as persisted in events-data.json. `date` is the
alarm timestamp in epoch milliseconds. -/

structure Event where
  id : Nat
  messageId : String
  date : Int
  camera : String
  imagePath : Option String
  videoPath : Option String
  subject : String
  acknowledged : Bool
  locked : Bool
  note : Option String
  tags : List String
  deriving Repr, DecidableEq

/-! ## Event Store access (event-retention.js readEventsData / writeEventsData)

The try/catch structure is embedded by passing in the outcome of the
underlying filesystem operation: `readEventsData` catches any read or
parse error and returns the empty list; `writeEventsData` reports
failure as `false`. -/

def readEventsData (readResult : Except String (List Event)) : List Event :=
  match readResult with
  | Except.ok events => events
  | Except.error _ => []

def writeEventsData (writeResult : Except String Unit) : Bool :=
  match writeResult with
  | Except.ok _ => true
  | Except.error _ => false

/-! ## /api/videos/list camera filtering (app.js route)

After a date-scoped or 7-day-scoped directory walk has produced
`year/month/day/file` relative paths (only `.mp4` files, matched
case-insensitively), a non-empty `camera` query parameter keeps the
paths whose basename starts with the camera string. -/

def mp4Only (files : List String) : List String :=
  files.filter (fun file => strEndsWith (strToLower file) ".mp4")

def apiVideosListFilter (camera : String) (videoFiles : List String) : List String :=
  if camera ≠ "" then
    videoFiles.filter (fun file => strStartsWith (basename file) camera)
  else
    videoFiles

/-- event-retention.js lines 292-295: the fallback search keeps the
files that start with the event's camera and end (case-insensitively)
in `.mp4`. -/
def retentionCameraFilter (camera : String) (files : List String) : List String :=
  files.filter (fun file => strStartsWith file camera ∧ strEndsWith (strToLower file) ".mp4")

/-! ## 14-digit timestamp parsing at the three sites

Each site destructures the `YYYYMMDDHHMMSS` string into
`(year, month0, day, hour, minute, second)` with JS months 0-based.
app.js uses `substr(pos, 2)` correctly; event-retention.js uses
`substring(pos, 2)` whose arguments swap; the original
migration-video-paths.js uses `substr(pos, nextPos)` treating the
second argument as a length. -/

structure ParsedTs where
  year : Int
  month0 : Int
  day : Int
  hour : Int
  minute : Int
  second : Int
  deriving Repr, DecidableEq

def appParseVideoTimestamp (ts : String) : ParsedTs :=
  { year := parseIntDigits (jsSubstr ts 0 4)
    month0 := parseIntDigits (jsSubstr ts 4 2) - 1
    day := parseIntDigits (jsSubstr ts 6 2)
    hour := parseIntDigits (jsSubstr ts 8 2)
    minute := parseIntDigits (jsSubstr ts 10 2)
    second := parseIntDigits (jsSubstr ts 12 2) }

def retentionParseVideoTimestamp (ts : String) : ParsedTs :=
  { year := parseIntDigits (jsSubstring ts 0 4)
    month0 := parseIntDigits (jsSubstring ts 4 2) - 1
    day := parseIntDigits (jsSubstring ts 6 2)
    hour := parseIntDigits (jsSubstring ts 8 2)
    minute := parseIntDigits (jsSubstring ts 10 2)
    second := parseIntDigits (jsSubstring ts 12 2) }

def migrationParseVideoTimestamp (ts : String) : ParsedTs :=
  { year := parseIntDigits (jsSubstr ts 0 4)
    month0 := parseIntDigits (jsSubstr ts 4 6) - 1
    day := parseIntDigits (jsSubstr ts 6 8)
    hour := parseIntDigits (jsSubstr ts 8 10)
    minute := parseIntDigits (jsSubstr ts 10 12)
    second := parseIntDigits (jsSubstr ts 12 14) }

def parsedTsToMs (p : ParsedTs) : Int :=
  jsDateMs p.year p.month0 p.day p.hour p.minute p.second

/-! ## The best-match fold (app.js 882-930, migration-video-paths.js 152-195)

Both matchers keep `(bestMatch, minTimeDiff)` with `minTimeDiff`
starting at `Infinity` and update on
`timeDiff < minTimeDiff && timeDiff <= timeWindowMs`; candidates whose
timestamp cannot be extracted are skipped (`continue`).  The
accumulator `none` models `bestMatch = null, minTimeDiff = Infinity`. -/

def betterThan (best : Option (α × Int)) (d : Int) : Bool :=
  match best with
  | none => true
  | some b => d < b.2

def bestMatchFold (tol : Int) (delta : α → Option Int) :
    Option (α × Int) → List α → Option (α × Int)
  | best, [] => best
  | best, c :: rest =>
      match delta c with
      | none => bestMatchFold tol delta best rest
      | some d =>
          if betterThan best d ∧ d ≤ tol then
            bestMatchFold tol delta (some (c, d)) rest
          else
            bestMatchFold tol delta best rest

/-! ## Correlation Matcher (app.js findMatchingVideo, lines 809-1080)

The two `/api/videos/list` fetches are passed in as the lists they
return (`year/month/day/file` relative paths). -/

def appVideoDelta (imageTime : Int) (videoPath : String) : Option Int :=
  (extract14 (basename videoPath)).map
    (fun ts => |parsedTsToMs (appParseVideoTimestamp ts) - imageTime|)

def appScanVideos (imageTime tol : Int) (best : Option (String × Int))
    (videos : List String) : Option (String × Int) :=
  bestMatchFold tol (appVideoDelta imageTime) best videos

def appImageAnchorTime (ts : String) : Int :=
  jsDateMs (parseIntDigits (jsSubstr ts 0 4)) (parseIntDigits (jsSubstr ts 4 2) - 1)
    (parseIntDigits (jsSubstr ts 6 2)) (parseIntDigits (jsSubstr ts 8 2))
    (parseIntDigits (jsSubstr ts 10 2)) (parseIntDigits (jsSubstr ts 12 2))

/-- app.js `findMatchingVideo(event)` with the scoped (camera+date) and
unscoped (camera only) listing responses as parameters.  Result is
`some (fullVideoPath, timeDifference)` for `{found: true, ...}`.  The
unscoped fallback runs only when the scoped listing was empty, and both
tiers use a 120 seconds window.  There is no early return on an already
populated `event.videoPath`. -/
def appFindMatchingVideo (event : Event) (scopedVideos allVideos : List String) :
    Option (String × Int) :=
  match event.imagePath with
  | none => none
  | some imagePath =>
    match imageTimestampMatch imagePath with
    | none => none
    | some imageTimestamp =>
      if event.camera = "" then none
      else
        let imageTime := appImageAnchorTime imageTimestamp
        match appScanVideos imageTime 120000 none scopedVideos with
        | some b => some ("/videos/" ++ b.1, b.2)
        | none =>
            if scopedVideos.length = 0 then
              match appScanVideos imageTime 120000 none allVideos with
              | some b => some ("/videos/" ++ b.1, b.2)
              | none => none
            else none

/-- app.js POST `/api/events/update-video-path` (lines 728-794), after
request validation: load the store, locate the event by id, skip the
write when the stored path already equals the submitted one, otherwise
overwrite it and write the whole list back.  Returns the resulting
store contents and the success flag. -/
def updateVideoPathEndpoint (events : List Event) (eventId : Nat) (videoPath : String) :
    List Event × Bool :=
  match events.findIdx? (fun e => e.id == eventId) with
  | none => (events, false)
  | some i =>
      match events.get? i with
      | none => (events, false)
      | some e =>
          if e.videoPath = some videoPath then (events, true)
          else (events.set i { e with videoPath := some videoPath }, true)

/-! ## Migration Matcher (migration-video-paths.js findMatchingVideo, lines 43-206)

Filesystem access is passed in as `dirExists`/`listDir`.  The four
candidate day directories are scanned in order with the best match and
its delta carried across directories, which is the same as one fold
over the concatenated candidate list. -/

def migrationVideoDelta (compareTime : Int) (file : String) : Option Int :=
  (extract14 file).map
    (fun ts => |parsedTsToMs (migrationParseVideoTimestamp ts) - compareTime|)

def ymdOfMs (ms : Int) : String × String × String :=
  (toString (getFullYearOf ms), pad2 (getMonthOf ms + 1), pad2 (getDateOf ms))

def migrationFindMatchingVideo (videosBasePath : String) (event : Event)
    (dirExists : String → Bool) (listDir : String → List String) : Option String :=
  match event.videoPath with
  | some vp => some vp
  | none =>
    match event.imagePath with
    | none => none
    | some imagePath =>
      if event.camera = "" then none
      else
        match imageTimestampMatch imagePath with
        | none => none
        | some imageTimestamp =>
          let year := jsSubstr imageTimestamp 0 4
          let month := jsSubstr imageTimestamp 4 2
          let day := jsSubstr imageTimestamp 6 2
          let hour := parseIntDigits (jsSubstr imageTimestamp 8 2)
          let minute := parseIntDigits (jsSubstr imageTimestamp 10 2)
          let second := parseIntDigits (jsSubstr imageTimestamp 12 2)
          let datesToCheck := [(year, month, day), ymdOfMs event.date,
            ymdOfMs (event.date - 86400000), ymdOfMs (event.date + 86400000)]
          let compareTime := jsDateMs (parseIntDigits year) (parseIntDigits month - 1)
            (parseIntDigits day) hour minute second
          let candidates := datesToCheck.flatMap (fun ymd =>
            let videoDir := videosBasePath ++ "/" ++ ymd.1 ++ "/" ++ ymd.2.1 ++ "/" ++ ymd.2.2
            if dirExists videoDir then
              ((listDir videoDir).filter
                  (fun file => strEndsWith (strToLower file) ".mp4" ∧ strStartsWith file event.camera)).map
                (fun file =>
                  ("/videos/" ++ ymd.1 ++ "/" ++ ymd.2.1 ++ "/" ++ ymd.2.2 ++ "/" ++ file, file))
            else [])
          (bestMatchFold 120000 (fun c => migrationVideoDelta compareTime c.2) none
            candidates).map (fun b => b.1.1)

/-! ## Retention Engine (event-retention.js cleanupOldEvents and friends) -/

def isOldEvent (cutoffDate : Int) (e : Event) : Bool := e.date < cutoffDate

/-- One iteration of the classification loop (lines 90-104): an old
unlocked event goes to `eventsToDelete`, anything else to
`eventsToKeep`, and an old locked event bumps `skippedLockedEvents`. -/
def classifyStep (cutoffDate : Int) (acc : List Event × List Event × Nat) (event : Event) :
    List Event × List Event × Nat :=
  if isOldEvent cutoffDate event && !event.locked then
    (acc.1, acc.2.1 ++ [event], acc.2.2)
  else
    (acc.1 ++ [event], acc.2.1,
      acc.2.2 + (if isOldEvent cutoffDate event && event.locked then 1 else 0))

/-- The classification loop: one pass that builds `eventsToKeep`,
`eventsToDelete` and `skippedLockedEvents` in order. -/
def classifyEvents (cutoffDate : Int) (events : List Event) :
    List Event × List Event × Nat :=
  events.foldl (classifyStep cutoffDate) ([], [], 0)

/-- The store contents after one sweep (lines 416-428): the kept list
is written back only when at least one event was deleted
(`stats.deletedEvents`, which the processing loop increments once per
event of `eventsToDelete`). -/
def cleanupSurvivors (cutoffDate : Int) (events : List Event) : List Event :=
  let c := classifyEvents cutoffDate events
  if 0 < c.2.1.length then c.1 else events

def pathJoin (a b : String) : String := a ++ "/" ++ b

/-- Deletion of a stored `videoPath` during a sweep (lines 140-198):
strip a leading `/videos/`, try the three path formats in order and
unlink the first that exists (unlink assumed to succeed there); when no
format exists on disk, `stats.errors` receives an entry.  Returns
`(deletedVideos increment, errors appended)`. -/
def storedVideoDeletion (videosBasePath : String) (eventId : Nat) (videoPath : String)
    (existsFS : String → Bool) : Nat × List String :=
  let relativePath := if strStartsWith videoPath "/videos/" then strDrop videoPath 8 else videoPath
  let pathFormats := [pathJoin (pathJoin videosBasePath "public/videos") relativePath,
                      pathJoin (pathJoin videosBasePath "videos") relativePath,
                      pathJoin videosBasePath relativePath]
  if pathFormats.any existsFS then (1, [])
  else (0, ["Failed to find video file for event " ++ toString eventId ++ " at any expected path"])

def retentionTimeWindowMs : Int := 180 * 1000

/-- Lines 333-348: the candidate's delta against the event date and,
when an image timestamp was parsed, against that second anchor;
`Math.min(timeDiff, Infinity) = timeDiff` models the missing-anchor
case. -/
def retentionBestTimeDiff (eventTime : Int) (alternateCompareTime : Option Int)
    (fileTime : Int) : Int :=
  let timeDiff := |fileTime - eventTime|
  match alternateCompareTime with
  | some alt => min timeDiff |fileTime - alt|
  | none => timeDiff

def retentionAccepts (eventTime : Int) (alternateCompareTime : Option Int)
    (fileTime : Int) : Bool :=
  retentionBestTimeDiff eventTime alternateCompareTime fileTime ≤ retentionTimeWindowMs

/-- The fallback per-file loop (lines 300-392) over the already listed
and camera-filtered candidates `(file, fileTime)` in scan order, where
`fileTime` is the value produced upstream from the filename.  The first
candidate inside the window is unlinked and the search stops; an ENOENT
unlink failure is logged without an error entry and the scan continues;
any other unlink failure appends to `errors`.  Returns
`(deletedVideos, errors, foundVideo)`. -/
def retentionFallbackScan (eventTime : Int) (alternateCompareTime : Option Int)
    (eventId : Nat) (unlinkErr : String → Option String) :
    List (String × Int) → Nat × List String × Bool
  | [] => (0, [], false)
  | c :: rest =>
      if retentionAccepts eventTime alternateCompareTime c.2 then
        match unlinkErr c.1 with
        | none => (1, [], true)
        | some code =>
            if code = "ENOENT" then
              retentionFallbackScan eventTime alternateCompareTime eventId unlinkErr rest
            else
              let r := retentionFallbackScan eventTime alternateCompareTime eventId unlinkErr rest
              (r.1, ("Failed to delete video for event " ++ toString eventId ++ ": " ++ code) :: r.2.1, r.2.2)
      else retentionFallbackScan eventTime alternateCompareTime eventId unlinkErr rest

/-! ## Lock toggling and video-path storage (event-retention.js 448-504)

Both operations load the store, locate the first event with the given
id, update the one field and write the whole list back; `none` models
the "Event not found" result. -/

def toggleEventLock (events : List Event) (eventId : Nat) (locked : Bool) :
    Option (List Event) :=
  match events.findIdx? (fun e => e.id == eventId) with
  | none => none
  | some i =>
      match events.get? i with
      | none => none
      | some e => some (events.set i { e with locked := locked })

def storeVideoPath (events : List Event) (eventId : Nat) (videoPath : String) :
    Option (List Event) :=
  match events.findIdx? (fun e => e.id == eventId) with
  | none => none
  | some i =>
      match events.get? i with
      | none => none
      | some e => some (events.set i { e with videoPath := some videoPath })

/-! ## Concrete fixtures for the counterexamples and witnesses -/

/-- An already-matched event (non-null `videoPath`), with the spec §8
image filename whose embedded timestamp is 2025-04-24 15:34:18. -/
def eventA : Event :=
  { id := 1, messageId := "m1", date := jsDateMs 2025 3 24 15 34 18, camera := "POD1",
    imagePath := some "1745505272552_01_20250424153418000.jpg",
    videoPath := some "/videos/2025/04/24/POD1_00_20250424150000.mp4",
    subject := "s", acknowledged := false, locked := false, note := none, tags := [] }

/-- An event whose two anchors disagree: the event-log date says
16:00:00 while the image-embedded timestamp says 15:34:18. -/
def eventB : Event :=
  { id := 2, messageId := "m2", date := jsDateMs 2025 3 24 16 0 0, camera := "POD1",
    imagePath := some "1745505272552_01_20250424153418000.jpg", videoPath := none,
    subject := "s", acknowledged := false, locked := false, note := none, tags := [] }

def oldUnlockedEvent : Event :=
  { id := 10, messageId := "mu", date := 0, camera := "POD1", imagePath := none,
    videoPath := none, subject := "old unlocked", acknowledged := false, locked := false,
    note := none, tags := [] }

def oldLockedEvent : Event :=
  { id := 11, messageId := "ml", date := 0, camera := "POD1", imagePath := none,
    videoPath := none, subject := "old locked", acknowledged := false, locked := true,
    note := none, tags := [] }

def recentEvent : Event :=
  { id := 12, messageId := "mr", date := 200, camera := "POD1", imagePath := none,
    videoPath := none, subject := "recent", acknowledged := false, locked := false,
    note := none, tags := [] }

/-- A delta function assigning every candidate the same in-window
delta, for exercising the tie-break. -/
def deltaTie : String → Option Int := fun _ => some 5000

end PodARC

namespace PodARC

/-! ## Shared lemmas about the best-match selection loop -/

/-- The selection loop over already-evaluated `(candidate, delta)`
pairs; `bestMatchFold` is this loop run over the extractable
candidates. -/
def selectLoop (tol : Int) : Option (α × Int) → List (α × Int) → Option (α × Int)
  | best, [] => best
  | best, p :: rest =>
      if betterThan best p.2 ∧ p.2 ≤ tol then selectLoop tol (some p) rest
      else selectLoop tol best rest

def evaluatedCands (delta : α → Option Int) (cands : List α) : List (α × Int) :=
  cands.filterMap (fun c => (delta c).map (fun d => (c, d)))

lemma bestMatchFold_eq_selectLoop (tol : Int) (delta : α → Option Int) :
    ∀ (cands : List α) (best : Option (α × Int)),
      bestMatchFold tol delta best cands = selectLoop tol best (evaluatedCands delta cands) := by
  intro cands
  induction cands with
  | nil => intro best; rfl
  | cons c rest ih =>
      intro best
      cases h : delta c with
      | none =>
          simp only [bestMatchFold, evaluatedCands, List.filterMap_cons, h]
          simpa only [evaluatedCands] using ih best
      | some d =>
          simp only [bestMatchFold, evaluatedCands, List.filterMap_cons, h, Option.map_some']
          by_cases hb : betterThan best d ∧ d ≤ tol
          · simp only [selectLoop, hb, if_true]
            simpa only [evaluatedCands] using ih (some (c, d))
          · simp only [selectLoop, hb, if_false]
            simpa only [evaluatedCands] using ih best

lemma selectLoop_from_some (tol : Int) :
    ∀ (l : List (α × Int)) (b : α × Int),
      ∃ b2, selectLoop tol (some b) l = some b2 ∧ b2.2 ≤ b.2 := by
  intro l
  induction l with
  | nil => intro b; exact ⟨b, rfl, le_refl _⟩
  | cons p rest ih =>
      intro b
      by_cases h : betterThan (some b) p.2 ∧ p.2 ≤ tol
      · obtain ⟨b2, hb2, hle⟩ := ih p
        refine ⟨b2, by simp [selectLoop, h, hb2], ?_⟩
        have hlt : p.2 < b.2 := by simpa [betterThan] using h.1
        exact le_trans hle (le_of_lt hlt)
      · obtain ⟨b2, hb2, hle⟩ := ih b
        exact ⟨b2, by simp [selectLoop, h, hb2], hle⟩

lemma selectLoop_complete (tol : Int) :
    ∀ (l : List (α × Int)) (best : Option (α × Int)) (p : α × Int),
      p ∈ l → p.2 ≤ tol →
      ∃ b2, selectLoop tol best l = some b2 ∧ b2.2 ≤ p.2 := by
  intro l
  induction l with
  | nil => intro best p hp; exact absurd hp (List.not_mem_nil p)
  | cons q rest ih =>
      intro best p hp htol
      by_cases hq : betterThan best q.2 ∧ q.2 ≤ tol
      · rcases List.mem_cons.mp hp with hpq | hpr
        · subst hpq
          obtain ⟨b2, hb2, hle⟩ := selectLoop_from_some tol rest p
          exact ⟨b2, by simp [selectLoop, hq, hb2], hle⟩
        · obtain ⟨b2, hb2, hle⟩ := ih (some q) p hpr htol
          exact ⟨b2, by simp [selectLoop, hq, hb2], hle⟩
      · rcases List.mem_cons.mp hp with hpq | hpr
        · subst hpq
          have hbest : ∃ bb, best = some bb ∧ bb.2 ≤ p.2 := by
            cases best with
            | none => exact absurd ⟨by simp [betterThan], htol⟩ hq
            | some bb =>
                refine ⟨bb, rfl, ?_⟩
                by_contra hlt
                push_neg at hlt
                exact hq ⟨by simp only [betterThan, decide_eq_true_eq]; exact hlt, htol⟩
          obtain ⟨bb, hbb, hble⟩ := hbest
          subst hbb
          obtain ⟨b2, hb2, hle⟩ := selectLoop_from_some tol rest bb
          exact ⟨b2, by simp [selectLoop, hq, hb2], le_trans hle hble⟩
        · obtain ⟨b2, hb2, hle⟩ := ih best p hpr htol
          exact ⟨b2, by simp [selectLoop, hq, hb2], hle⟩

/-- Where the winner comes from: either the accumulator survives
untouched (nothing in the list was strictly better within tolerance),
or the winner sits in the list, within tolerance, every pair before it
that is within tolerance has a strictly larger delta, and the winner
strictly improved on the incoming accumulator. -/
lemma selectLoop_first (tol : Int) :
    ∀ (l : List (α × Int)) (best : Option (α × Int)) (b : α × Int),
      selectLoop tol best l = some b →
      (best = some b ∧ ∀ p ∈ l, ¬(p.2 ≤ tol ∧ p.2 < b.2)) ∨
      (∃ l1 l2, l = l1 ++ b :: l2 ∧ b.2 ≤ tol ∧
        (∀ p ∈ l1, ¬(p.2 ≤ tol ∧ p.2 ≤ b.2)) ∧
        (∀ bb, best = some bb → b.2 < bb.2)) := by
  intro l
  induction l with
  | nil =>
      intro best b hb
      left
      exact ⟨hb, by intro p hp; exact absurd hp (List.not_mem_nil p)⟩
  | cons q rest ih =>
      intro best b hb
      by_cases hq : betterThan best q.2 ∧ q.2 ≤ tol
      · have hb2 : selectLoop tol (some q) rest = some b := by
          simpa [selectLoop, hq] using hb
        rcases ih (some q) b hb2 with ⟨heq, hall⟩ | ⟨l1, l2, hsplit, htol2, hpre, himp⟩
        · obtain rfl : q = b := Option.some_inj.mp heq
          right
          refine ⟨[], rest, rfl, hq.2, ?_, ?_⟩
          · intro p hp
            exact absurd hp (List.not_mem_nil p)
          · intro bb hbb
            rw [hbb] at hq
            simpa [betterThan] using hq.1
        · right
          have hbq : b.2 < q.2 := himp q rfl
          refine ⟨q :: l1, l2, by simp [hsplit], htol2, ?_, ?_⟩
          · intro p hp
            rcases List.mem_cons.mp hp with hpq | hpl
            · subst hpq
              intro hcon
              exact absurd hcon.2 (not_le.mpr hbq)
            · exact hpre p hpl
          · intro bb hbb
            have : q.2 < bb.2 := by
              rw [hbb] at hq
              simpa [betterThan] using hq.1
            exact lt_trans hbq this
      · have hb2 : selectLoop tol best rest = some b := by
          simpa [selectLoop, hq] using hb
        rcases ih best b hb2 with ⟨heq, hall⟩ | ⟨l1, l2, hsplit, htol2, hpre, himp⟩
        · left
          refine ⟨heq, ?_⟩
          intro p hp
          rcases List.mem_cons.mp hp with hpq | hpl
          · subst hpq
            intro hcon
            have hbt : betterThan best p.2 = true := by
              rw [heq]
              simp only [betterThan, decide_eq_true_eq]
              exact hcon.2
            exact hq ⟨hbt, hcon.1⟩
          · exact hall p hpl
        · right
          refine ⟨q :: l1, l2, by simp [hsplit], htol2, ?_, himp⟩
          intro p hp
          rcases List.mem_cons.mp hp with hpq | hpl
          · subst hpq
            intro hcon
            cases hbest : best with
            | none =>
                rw [hbest] at hq
                exact hq ⟨by simp [betterThan], hcon.1⟩
            | some bb =>
                have hble : bb.2 ≤ p.2 := by
                  rw [hbest] at hq
                  by_contra hlt
                  push_neg at hlt
                  exact hq ⟨by simp only [betterThan, decide_eq_true_eq]; exact hlt, hcon.1⟩
                have hblt : b.2 < bb.2 := himp bb hbest
                exact absurd hcon.2 (not_le.mpr (lt_of_lt_of_le hblt hble))
          · exact hpre p hpl


/-- The classification fold from an arbitrary accumulator splits into
filters: kept events are those not old or locked, deleted events the
old unlocked ones, and the skipped counter counts the old locked
ones. -/
lemma classifyEvents_foldl (cutoffDate : Int) :
    ∀ (events : List Event) (k d : List Event) (s : Nat),
      events.foldl (classifyStep cutoffDate) (k, d, s) =
        (k ++ events.filter (fun e => !(isOldEvent cutoffDate e && !e.locked)),
         d ++ events.filter (fun e => isOldEvent cutoffDate e && !e.locked),
         s + (events.filter (fun e => isOldEvent cutoffDate e && e.locked)).length) := by
  intro events
  induction events with
  | nil => intro k d s; simp
  | cons e rest ih =>
      intro k d s
      simp only [List.foldl_cons, classifyStep]
      cases hol : isOldEvent cutoffDate e with
      | false => simp [hol, ih, List.filter_cons]
      | true =>
          cases hlk : e.locked with
          | false => simp [hol, hlk, ih, List.filter_cons]
          | true =>
              simp [hol, hlk, ih, List.filter_cons, Nat.add_comm, Nat.add_assoc,
                Nat.add_left_comm]

/-- The fallback scan never records an error when every unlink reports
ENOENT (the file is already gone). -/
lemma retentionFallbackScan_enoent (eventTime : Int) (alt : Option Int) (eventId : Nat) :
    ∀ cands : List (String × Int),
      (retentionFallbackScan eventTime alt eventId (fun _ => some "ENOENT") cands).2.1 = [] := by
  intro cands
  induction cands with
  | nil => rfl
  | cons c rest ih =>
      by_cases h : retentionAccepts eventTime alt c.2 = true
      · simp [retentionFallbackScan, h, ih]
      · simp [retentionFallbackScan, h, ih]

/-! ## Claim theorems -/

/-- Claim C9, counterexample: `readEventsData` maps a read failure to
the empty list, the same value a successful read of an empty store
yields, so the load path silently converts an I/O error into a
success-like value. -/
theorem C9_counterexample_load_swallows_error :
    readEventsData (Except.error "EACCES") = readEventsData (Except.ok ([] : List Event)) ∧
    readEventsData (Except.error "EACCES") = ([] : List Event) :=
  ⟨rfl, rfl⟩

/-- Claim C9 (amended): a save failure is surfaced as `false` and a
successful save as `true`, but a load failure is swallowed and
returned as the empty event list. -/
theorem C9_amended_store_failure_surfacing :
    ∀ (msg : String) (events : List Event),
      writeEventsData (Except.error msg) = false ∧
      writeEventsData (Except.ok ()) = true ∧
      readEventsData (Except.error msg) = [] ∧
      readEventsData (Except.ok events) = events := by
  intro msg events
  exact ⟨rfl, rfl, rfl, rfl⟩

/-- Claim C6, counterexample: for camera POD1 the listing filter and
the retention filter both keep `POD10_00_20250424153423.mp4`, whose
pre-separator prefix POD10 merely begins with the camera string. -/
theorem C6_counterexample_startsWith_keeps_pod10 :
    apiVideosListFilter "POD1" ["2025/04/24/POD10_00_20250424153423.mp4"] =
      ["2025/04/24/POD10_00_20250424153423.mp4"] ∧
    retentionCameraFilter "POD1" ["POD10_00_20250424153423.mp4"] =
      ["POD10_00_20250424153423.mp4"] := by
  exact ⟨by decide, by decide⟩

/-- Claim C6 (amended): with a non-empty camera string, a listed file
is kept iff its basename starts with the camera string, and the
retention fallback keeps a file iff it starts with the camera string
and ends (case-insensitively) in `.mp4`; exact equality of the
pre-separator prefix is not required. -/
theorem C6_amended_camera_filter :
    ∀ (camera : String) (files : List String) (file : String),
      camera ≠ "" →
      ((file ∈ apiVideosListFilter camera files ↔
         file ∈ files ∧ strStartsWith (basename file) camera = true) ∧
       (file ∈ retentionCameraFilter camera files ↔
         file ∈ files ∧ strStartsWith file camera = true ∧
           strEndsWith (strToLower file) ".mp4" = true)) := by
  intro camera files file h
  constructor
  · simp [apiVideosListFilter, h, List.mem_filter]
  · simp [retentionCameraFilter, List.mem_filter]

/-- Claim C6, witness: instantiating the amended filter
characterization at camera POD1 on a two-file listing. -/
theorem C6_witness :
    "2025/04/24/POD1_00_20250424153423.mp4" ∈
      apiVideosListFilter "POD1"
        ["2025/04/24/POD1_00_20250424153423.mp4", "2025/04/24/XCAM_00_20250424153423.mp4"] ∧
    "POD1_00_20250424153423.mp4" ∈
      retentionCameraFilter "POD1" ["POD1_00_20250424153423.mp4"] :=
  ⟨(C6_amended_camera_filter "POD1"
      ["2025/04/24/POD1_00_20250424153423.mp4", "2025/04/24/XCAM_00_20250424153423.mp4"]
      "2025/04/24/POD1_00_20250424153423.mp4" (by decide)).1.mpr ⟨by decide, by decide⟩,
   (C6_amended_camera_filter "POD1" ["POD1_00_20250424153423.mp4"]
      "POD1_00_20250424153423.mp4" (by decide)).2.mpr ⟨by decide, by decide, by decide⟩⟩

/-- Claim C7: the three 14-digit parse sites disagree on the input
`20250424153423`.  app.js reads the positional fields (month converted
once to 0-based); event-retention.js, whose `substring(4, 2)` swaps
its arguments, reads the month from digits 3-4 and spills following
fields across the string; the original migration script treats the
second `substr` argument as a length. -/
theorem C7_parse_sites_diverge :
    appParseVideoTimestamp "20250424153423" =
      { year := 2025, month0 := 3, day := 24, hour := 15, minute := 34, second := 23 } ∧
    retentionParseVideoTimestamp "20250424153423" =
      { year := 2025, month0 := 24, day := 2504, hour := 250424, minute := 25042415,
        second := 2504241534 } ∧
    migrationParseVideoTimestamp "20250424153423" =
      { year := 2025, month0 := 42414, day := 24153423, hour := 153423, minute := 3423,
        second := 23 } ∧
    retentionParseVideoTimestamp "20250424153423" ≠ appParseVideoTimestamp "20250424153423" ∧
    migrationParseVideoTimestamp "20250424153423" ≠ appParseVideoTimestamp "20250424153423" := by
  refine ⟨by decide, by decide, by decide, by decide, by decide⟩

/-- Claim C5, counterexample: eventB carries both anchors (log date
16:00:00, image timestamp 15:34:18); the candidate video at 16:00:05 is
5000 ms from the date anchor — within every tolerance — yet the
Matcher reports no match because it compares only against the image
anchor. -/
theorem C5_counterexample_matcher_single_anchor :
    appFindMatchingVideo eventB ["2025/04/24/POD1_00_20250424160005.mp4"] [] = none ∧
    retentionBestTimeDiff eventB.date (some (appImageAnchorTime "20250424153418"))
      (parsedTsToMs (appParseVideoTimestamp "20250424160005")) = 5000 ∧
    ((5000 : Int) ≤ 120000) := by
  refine ⟨by decide, by decide, by decide⟩

/-- Claim C5 (amended): only the Retention Engine fallback compares
each candidate against both anchors and takes the smaller delta; the
Matcher is entirely independent of the recorded event date and uses
the image-embedded timestamp alone. -/
theorem C5_amended_dual_anchor_only_retention :
    (∀ (eventTime alt fileTime : Int),
       retentionBestTimeDiff eventTime (some alt) fileTime =
         min |fileTime - eventTime| |fileTime - alt|) ∧
    (∀ (event : Event) (scopedVs allv : List String) (d1 d2 : Int),
       appFindMatchingVideo { event with date := d1 } scopedVs allv =
         appFindMatchingVideo { event with date := d2 } scopedVs allv) := by
  constructor
  · intro eventTime alt fileTime; rfl
  · intro event scopedVs allv d1 d2; rfl

/-- Claim C8, counterexample: a stored `videoPath` whose file exists at
none of the tried path formats produces an `errors` entry, so an
already-gone video is not treated as success on the stored-path
branch. -/
theorem C8_counterexample_stored_missing_video_error :
    storedVideoDeletion "BASE" 7 "/videos/2025/04/24/a.mp4" (fun _ => false) =
      (0, ["Failed to find video file for event 7 at any expected path"]) ∧
    (storedVideoDeletion "BASE" 7 "/videos/2025/04/24/a.mp4" (fun _ => false)).2 ≠ [] := by
  refine ⟨by decide, by decide⟩

/-- Claim C8 (amended): the two branches disagree — with a stored
`videoPath` an absent file yields an error entry, while the fallback
search treats an already-gone file (every unlink reporting ENOENT) as
success with no error entry. -/
theorem C8_amended_missing_video_asymmetry :
    ∀ (basePath : String) (eventId : Nat) (vp : String) (existsFS : String → Bool)
      (eventTime : Int) (alt : Option Int) (cands : List (String × Int)),
      (∀ p, existsFS p = false) →
      storedVideoDeletion basePath eventId vp existsFS =
        (0, ["Failed to find video file for event " ++ toString eventId ++
          " at any expected path"]) ∧
      (retentionFallbackScan eventTime alt eventId (fun _ => some "ENOENT") cands).2.1 = [] := by
  intro basePath eventId vp existsFS eventTime alt cands h
  constructor
  · simp [storedVideoDeletion, h]
  · exact retentionFallbackScan_enoent eventTime alt eventId cands

/-- Claim C8, witness: the amended asymmetry at a concrete event,
filesystem and candidate list. -/
theorem C8_witness :
    storedVideoDeletion "BASE" 9 "/videos/2025/04/24/b.mp4" (fun _ => false) =
      (0, ["Failed to find video file for event " ++ toString 9 ++ " at any expected path"]) ∧
    (retentionFallbackScan 0 none 9 (fun _ => some "ENOENT") [("POD1_00_x.mp4", 1000)]).2.1 = [] :=
  C8_amended_missing_video_asymmetry "BASE" 9 "/videos/2025/04/24/b.mp4" (fun _ => false)
    0 none [("POD1_00_x.mp4", 1000)] (fun _ => rfl)

/-- Claim C1, counterexample: eventA already has a videoPath, yet the
app.js Matcher re-runs the candidate search and returns a different
path (the spec §8 scenario video, 5000 ms away), and `storeVideoPath`
overwrites the stored path with that different value. -/
theorem C1_counterexample_matcher_researches_and_overwrites :
    appFindMatchingVideo eventA ["2025/04/24/POD1_00_20250424153423.mp4"] [] =
      some ("/videos/2025/04/24/POD1_00_20250424153423.mp4", 5000) ∧
    eventA.videoPath = some "/videos/2025/04/24/POD1_00_20250424150000.mp4" ∧
    some "/videos/2025/04/24/POD1_00_20250424153423.mp4" ≠ eventA.videoPath ∧
    storeVideoPath [eventA] 1 "/videos/2025/04/24/POD1_00_20250424153423.mp4" =
      some [{ eventA with videoPath := some "/videos/2025/04/24/POD1_00_20250424153423.mp4" }] := by
  refine ⟨by decide, rfl, by decide, by decide⟩

/-- Claim C1 (amended): only the migration Matcher is idempotent — with
videoPath set it returns the stored path and never consults the
filesystem — and re-submitting the identical path through the update
endpoint leaves the store untouched; the app.js Matcher has no such
early exit and the write paths overwrite differing values. -/
theorem C1_amended_idempotent_sites :
    ∀ (basePath : String) (event : Event) (p : String)
      (dirExists dirExists2 : String → Bool) (listDir listDir2 : String → List String),
      event.videoPath = some p →
      (migrationFindMatchingVideo basePath event dirExists listDir = some p ∧
       migrationFindMatchingVideo basePath event dirExists listDir =
         migrationFindMatchingVideo basePath event dirExists2 listDir2) ∧
      (∀ (events : List Event) (eventId : Nat) (i : Nat) (e : Event),
         events.findIdx? (fun x => x.id == eventId) = some i →
         events.get? i = some e → e.videoPath = some p →
         updateVideoPathEndpoint events eventId p = (events, true)) := by
  intro basePath event p dE dE2 lD lD2 hvp
  refine ⟨⟨?_, ?_⟩, ?_⟩
  · simp [migrationFindMatchingVideo, hvp]
  · simp [migrationFindMatchingVideo, hvp]
  · intro events eventId i e h1 h2 h3
    rw [List.get?_eq_getElem?] at h2
    simp [updateVideoPathEndpoint, h1, h2, h3]

/-- Claim C1, witness: the amended idempotency at eventA with two
different filesystems and the endpoint at the already-stored path. -/
theorem C1_witness :
    migrationFindMatchingVideo "VB" eventA (fun _ => true)
        (fun _ => ["POD1_00_20250424153423.mp4"]) =
      some "/videos/2025/04/24/POD1_00_20250424150000.mp4" ∧
    updateVideoPathEndpoint [eventA] 1 "/videos/2025/04/24/POD1_00_20250424150000.mp4" =
      ([eventA], true) := by
  have h := C1_amended_idempotent_sites "VB" eventA
    "/videos/2025/04/24/POD1_00_20250424150000.mp4" (fun _ => true) (fun _ => false)
    (fun _ => ["POD1_00_20250424153423.mp4"]) (fun _ => []) rfl
  exact ⟨h.1.1, h.2 [eventA] 1 0 eventA (by decide) (by decide) rfl⟩

/-- Claim C10: both update operations write back the input list with
only the target entry replaced, the replacement changes only the one
field, and every other position of the list is untouched. -/
theorem C10_field_update_frame :
    ∀ (events : List Event) (eventId : Nat) (b : Bool) (vp : String) (i : Nat) (e : Event),
      events.findIdx? (fun x => x.id == eventId) = some i →
      events.get? i = some e →
      toggleEventLock events eventId b = some (events.set i { e with locked := b }) ∧
      storeVideoPath events eventId vp = some (events.set i { e with videoPath := some vp }) ∧
      (∀ j, j ≠ i → (events.set i { e with locked := b }).get? j = events.get? j) ∧
      (∀ j, j ≠ i → (events.set i { e with videoPath := some vp }).get? j = events.get? j) ∧
      ({ e with locked := b }).locked = b ∧
      ({ e with locked := b }).id = e.id ∧ ({ e with locked := b }).messageId = e.messageId ∧
      ({ e with locked := b }).date = e.date ∧ ({ e with locked := b }).camera = e.camera ∧
      ({ e with locked := b }).imagePath = e.imagePath ∧
      ({ e with locked := b }).videoPath = e.videoPath ∧
      ({ e with locked := b }).subject = e.subject ∧
      ({ e with locked := b }).acknowledged = e.acknowledged ∧
      ({ e with locked := b }).note = e.note ∧ ({ e with locked := b }).tags = e.tags ∧
      ({ e with videoPath := some vp }).videoPath = some vp ∧
      ({ e with videoPath := some vp }).id = e.id ∧
      ({ e with videoPath := some vp }).messageId = e.messageId ∧
      ({ e with videoPath := some vp }).date = e.date ∧
      ({ e with videoPath := some vp }).camera = e.camera ∧
      ({ e with videoPath := some vp }).imagePath = e.imagePath ∧
      ({ e with videoPath := some vp }).subject = e.subject ∧
      ({ e with videoPath := some vp }).acknowledged = e.acknowledged ∧
      ({ e with videoPath := some vp }).locked = e.locked ∧
      ({ e with videoPath := some vp }).note = e.note ∧
      ({ e with videoPath := some vp }).tags = e.tags := by
  intro events eventId b vp i e h1 h2
  have h2g : events[i]? = some e := by rw [← List.get?_eq_getElem?]; exact h2
  refine ⟨by simp [toggleEventLock, h1, h2g], by simp [storeVideoPath, h1, h2g], ?_, ?_,
    rfl, rfl, rfl, rfl, rfl, rfl, rfl, rfl, rfl, rfl, rfl, rfl, rfl, rfl, rfl, rfl, rfl,
    rfl, rfl, rfl, rfl, rfl⟩
  · intro j hj
    exact List.get?_set_ne _ _ (fun h => hj h.symm)
  · intro j hj
    exact List.get?_set_ne _ _ (fun h => hj h.symm)

/-- Claim C10, witness: the frame condition on a concrete two-event
store, updating the second event. -/
theorem C10_witness :
    toggleEventLock [oldUnlockedEvent, oldLockedEvent] 11 false =
      some ([oldUnlockedEvent, oldLockedEvent].set 1 { oldLockedEvent with locked := false }) ∧
    ([oldUnlockedEvent, oldLockedEvent].set 1
        { oldLockedEvent with locked := false }).get? 0 =
      [oldUnlockedEvent, oldLockedEvent].get? 0 := by
  have h := C10_field_update_frame [oldUnlockedEvent, oldLockedEvent] 11 false "x" 1
    oldLockedEvent (by decide) (by decide)
  exact ⟨h.1, h.2.2.1 0 (by decide)⟩

/-- Claim C2: after one sweep the persisted store is exactly the events
that are not old or are locked; old locked events are counted in
skippedLockedEvents; every locked event survives and every old
unlocked event is gone. -/
theorem C2_retention_sweep_exact :
    ∀ (cutoffDate : Int) (events : List Event),
      cleanupSurvivors cutoffDate events =
        events.filter (fun e => !(isOldEvent cutoffDate e) || e.locked) ∧
      (classifyEvents cutoffDate events).2.2 =
        (events.filter (fun e => isOldEvent cutoffDate e && e.locked)).length ∧
      (∀ e ∈ events, e.locked = true → e ∈ cleanupSurvivors cutoffDate events) ∧
      (∀ e ∈ events, isOldEvent cutoffDate e = true → e.locked = false →
        e ∉ cleanupSurvivors cutoffDate events) := by
  intro cutoffDate events
  have hclass := classifyEvents_foldl cutoffDate events [] [] 0
  have hpred : ∀ e : Event,
      (!(isOldEvent cutoffDate e && !e.locked)) = (!(isOldEvent cutoffDate e) || e.locked) := by
    intro e
    cases isOldEvent cutoffDate e <;> cases e.locked <;> rfl
  have hkeep : events.filter (fun e => !(isOldEvent cutoffDate e && !e.locked)) =
      events.filter (fun e => !(isOldEvent cutoffDate e) || e.locked) :=
    List.filter_congr (fun e _ => hpred e)
  have hsurv : cleanupSurvivors cutoffDate events =
      events.filter (fun e => !(isOldEvent cutoffDate e) || e.locked) := by
    rw [cleanupSurvivors]
    rw [classifyEvents] at *
    rw [hclass]
    by_cases hdel : 0 < (events.filter (fun e => isOldEvent cutoffDate e && !e.locked)).length
    · simp only [List.nil_append, hdel, if_true]
      exact hkeep
    · simp only [List.nil_append, hdel, if_false]
      have hnil : events.filter (fun e => isOldEvent cutoffDate e && !e.locked) = [] := by
        cases hfe : events.filter (fun e => isOldEvent cutoffDate e && !e.locked) with
        | nil => rfl
        | cons x xs => rw [hfe] at hdel; exact absurd (by simp) hdel
      have hall : ∀ e ∈ events, (!(isOldEvent cutoffDate e) || e.locked) = true := by
        intro e he
        have hne := List.filter_eq_nil_iff.mp hnil e he
        cases hol : isOldEvent cutoffDate e with
        | false => simp
        | true =>
            cases hlk : e.locked with
            | true => simp
            | false => rw [hol, hlk] at hne; simp at hne
      exact (List.filter_eq_self.mpr hall).symm
  refine ⟨hsurv, ?_, ?_, ?_⟩
  · rw [classifyEvents, hclass]
    simp
  · intro e he hlk
    rw [hsurv]
    exact List.mem_filter.mpr ⟨he, by simp [hlk]⟩
  · intro e he hold hlk
    rw [hsurv]
    intro hmem
    have := (List.mem_filter.mp hmem).2
    rw [hold, hlk] at this
    exact absurd this (by simp)

/-- Claim C2, witness: a sweep over one old unlocked, one old locked
and one recent event with cutoff 100 keeps exactly the locked and the
recent event and reports one skipped locked event. -/
theorem C2_witness :
    cleanupSurvivors 100 [oldUnlockedEvent, oldLockedEvent, recentEvent] =
      [oldLockedEvent, recentEvent] ∧
    (classifyEvents 100 [oldUnlockedEvent, oldLockedEvent, recentEvent]).2.2 = 1 ∧
    oldLockedEvent ∈ cleanupSurvivors 100 [oldUnlockedEvent, oldLockedEvent, recentEvent] ∧
    oldUnlockedEvent ∉ cleanupSurvivors 100 [oldUnlockedEvent, oldLockedEvent, recentEvent] := by
  have h := C2_retention_sweep_exact 100 [oldUnlockedEvent, oldLockedEvent, recentEvent]
  refine ⟨h.1.trans (by decide), h.2.1.trans (by decide), ?_, ?_⟩
  · exact h.2.2.1 oldLockedEvent (by decide) rfl
  · exact h.2.2.2 oldUnlockedEvent (by decide) rfl rfl

/-- Claim C3, counterexample: the Retention Engine's fallback
acceptance test uses a 180000 ms window, so a candidate at delta
120001 ms — which the claim says must not match — is accepted there
(and 180001 ms is not). -/
theorem C3_counterexample_retention_window_180s :
    retentionBestTimeDiff 0 none 120001 = 120001 ∧
    retentionAccepts 0 none 120001 = true ∧
    ¬((120001 : Int) ≤ 120000) ∧
    retentionAccepts 0 none 180001 = false := by
  refine ⟨by decide, by decide, by decide, by decide⟩

/-- Claim C3 (amended): both Matcher tiers accept a candidate iff its
delta is at most 120000 ms and the unscoped tier runs only when the
scoped listing is empty, but the Retention Engine's fallback accepts
iff the (dual-anchor) delta is at most 180000 ms. -/
theorem C3_amended_tolerance_windows :
    (∀ (imageTime : Int) (videos : List String),
       (appScanVideos imageTime 120000 none videos).isSome = true ↔
         ∃ vp ∈ videos, ∃ d, appVideoDelta imageTime vp = some d ∧ d ≤ 120000) ∧
    (∀ (event : Event) (scopedVs allv : List String), scopedVs ≠ [] →
       appFindMatchingVideo event scopedVs allv = appFindMatchingVideo event scopedVs []) ∧
    (∀ (eventTime fileTime : Int) (alt : Option Int),
       retentionAccepts eventTime alt fileTime = true ↔
         retentionBestTimeDiff eventTime alt fileTime ≤ 180000) := by
  refine ⟨?_, ?_, ?_⟩
  · intro imageTime videos
    rw [appScanVideos, bestMatchFold_eq_selectLoop]
    constructor
    · intro hs
      obtain ⟨b, hb⟩ := Option.isSome_iff_exists.mp hs
      rcases selectLoop_first 120000 _ none b hb with ⟨heq, _⟩ | ⟨l1, l2, hsplit, htol, _, _⟩
      · exact absurd heq (by simp)
      · have hbmem : b ∈ evaluatedCands (appVideoDelta imageTime) videos := by
          rw [hsplit]
          exact List.mem_append_right _ (List.mem_cons_self _ _)
        obtain ⟨vp, hvp, hmap⟩ := List.mem_filterMap.mp hbmem
        cases hd : appVideoDelta imageTime vp with
        | none => rw [hd] at hmap; exact absurd hmap (by simp)
        | some d =>
            rw [hd] at hmap
            simp only [Option.map_some'] at hmap
            have hbd : (vp, d) = b := Option.some_inj.mp (by simpa using hmap)
            refine ⟨vp, hvp, d, hd, ?_⟩
            rw [← hbd] at htol
            exact htol
    · rintro ⟨vp, hvp, d, hd, hle⟩
      have hmem : (vp, d) ∈ evaluatedCands (appVideoDelta imageTime) videos :=
        List.mem_filterMap.mpr ⟨vp, hvp, by rw [hd]; rfl⟩
      obtain ⟨b2, hb2, _⟩ := selectLoop_complete 120000 _ none (vp, d) hmem hle
      rw [hb2]
      rfl
  · intro event scopedVs allv h
    rcases hip : event.imagePath with _ | ip
    · simp [appFindMatchingVideo, hip]
    · rcases hits : imageTimestampMatch ip with _ | its
      · simp [appFindMatchingVideo, hip, hits]
      · by_cases hc : event.camera = ""
        · simp [appFindMatchingVideo, hip, hits, hc]
        · rcases hscan : appScanVideos (appImageAnchorTime its) 120000 none scopedVs with _ | b
          · have hlen : scopedVs.length ≠ 0 := fun h0 => h (List.length_eq_zero.mp h0)
            simp [appFindMatchingVideo, hip, hits, hc, hscan, hlen]
          · simp [appFindMatchingVideo, hip, hits, hc, hscan]
  · intro eventTime fileTime alt
    constructor
    · intro h
      have := of_decide_eq_true h
      simpa [retentionTimeWindowMs] using this
    · intro h
      apply decide_eq_true
      simpa [retentionTimeWindowMs] using h

/-- Claim C3, witness: a candidate exactly 120000 ms away is matched by
the scoped scan; the unscoped listing is ignored when the scoped
listing is non-empty; and the fallback accepts at 170000 ms. -/
theorem C3_witness :
    (appScanVideos (appImageAnchorTime "20250424150000") 120000 none
       ["2025/04/24/POD1_00_20250424150200.mp4"]).isSome = true ∧
    appFindMatchingVideo eventB ["2025/04/24/POD1_00_20250424160005.mp4"] ["other"] =
      appFindMatchingVideo eventB ["2025/04/24/POD1_00_20250424160005.mp4"] [] ∧
    retentionAccepts 0 none 170000 = true := by
  refine ⟨?_, ?_, ?_⟩
  · exact (C3_amended_tolerance_windows.1 (appImageAnchorTime "20250424150000")
      ["2025/04/24/POD1_00_20250424150200.mp4"]).mpr
      ⟨"2025/04/24/POD1_00_20250424150200.mp4", by decide, 120000, by decide, by decide⟩
  · exact C3_amended_tolerance_windows.2.1 eventB
      ["2025/04/24/POD1_00_20250424160005.mp4"] ["other"] (by decide)
  · exact (C3_amended_tolerance_windows.2.2 0 170000 none).mpr (by decide)

/-- Claim C4: the selection loop shared by the app.js Matcher and the
migration Matcher picks, among the candidates whose timestamp can be
evaluated, one within tolerance whose delta is globally minimal, and
every evaluated candidate earlier in enumeration order that is within
tolerance has a strictly larger delta — so a later candidate with an
equal delta never displaces the current best. -/
theorem C4_best_match_first_global_min :
    ∀ {α : Type} (tol : Int) (delta : α → Option Int) (cands : List α),
      (∀ p ∈ evaluatedCands delta cands, p.2 ≤ tol →
         ∃ b, bestMatchFold tol delta none cands = some b ∧ b.2 ≤ p.2) ∧
      (∀ b, bestMatchFold tol delta none cands = some b →
         ∃ l1 l2, evaluatedCands delta cands = l1 ++ b :: l2 ∧ b.2 ≤ tol ∧
           ∀ p ∈ l1, ¬(p.2 ≤ tol ∧ p.2 ≤ b.2)) := by
  intro α tol delta cands
  constructor
  · intro p hp hle
    rw [bestMatchFold_eq_selectLoop]
    exact selectLoop_complete tol _ none p hp hle
  · intro b hb
    rw [bestMatchFold_eq_selectLoop] at hb
    rcases selectLoop_first tol _ none b hb with ⟨heq, _⟩ | ⟨l1, l2, hsplit, htol, hpre, _⟩
    · exact absurd heq (by simp)
    · exact ⟨l1, l2, hsplit, htol, hpre⟩

/-- Claim C4, witness: with two candidates at the identical delta
5000 ms the loop keeps the first, and the minimality clause applied to
the second candidate bounds the winner's delta by 5000. -/
theorem C4_witness :
    (∃ b, bestMatchFold 120000 deltaTie none ["A", "B"] = some b ∧ b.2 ≤ 5000) ∧
    bestMatchFold 120000 deltaTie none ["A", "B"] = some ("A", 5000) := by
  refine ⟨?_, by decide⟩
  exact (C4_best_match_first_global_min 120000 deltaTie ["A", "B"]).1 ("B", 5000)
    (by decide) (by decide)
